import Mathlib

/-!
Verification of the `sys_util::mmap` module of platform-crosvm.

The module wraps an anonymous or file-backed `mmap` region behind a
bounds-checked accessor interface (`MemoryMapping` in `src/sys_util/src/mmap.rs`).
We embed the region as its size, its (opaque) base address and a byte-content
function, and each accessor as a Lean function returning `Except Error _`.
Interactions with the kernel (mmap / munmap / madvise) are made explicit as a
trace of `Syscall` values, and the outcome of each syscall is a parameter of an
`OsEnv` environment, since the kernel's answers are outside the program.

The repository targets 64-bit Linux: `usize` and `u64` are 64 bits wide and
`libc::off_t` is `i64`.
-/

namespace Mmap

/-- Largest value of `usize` (64-bit platform). -/
def USIZE_MAX : Nat := 2 ^ 64 - 1

/-- Largest value of `u64`. -/
def U64_MAX : Nat := 2 ^ 64 - 1

/-- Largest value of `libc::off_t` (`i64` on 64-bit Linux): `off_t::max_value()`. -/
def OFF_T_MAX : Nat := 2 ^ 63 - 1

/-- `usize::checked_add`: `none` exactly when the mathematical sum does not fit. -/
def checked_add (a b : Nat) : Option Nat :=
  if a + b ≤ USIZE_MAX then some (a + b) else none

/-- `u64::checked_add`. -/
def checked_add_u64 (a b : Nat) : Option Nat :=
  if a + b ≤ U64_MAX then some (a + b) else none

/-- Payloads of `std::io::Error` that the modelled std operations can produce:
`read_exact` fails with `UnexpectedEof` on a short source, `write_all` fails
when the sink cannot absorb everything. -/
inductive IoError where
  | unexpectedEof
  | writeZero
  | other (code : Nat)
deriving DecidableEq, Repr

/-- `sys_util::mmap::Error`, the closed set of failure kinds (mmap.rs lines 20-36). -/
inductive Error where
  | InvalidAddress
  | InvalidOffset
  | InvalidRange (offset count : Nat)
  | ReadFromSource (e : IoError)
  | SystemCallFailed (errno : Int)
  | WriteToMemory (e : IoError)
  | ReadFromMemory (e : IoError)
deriving DecidableEq, Repr

/-- `data_model::volatile_memory::VolatileMemoryError` (the variants exercised
by `get_slice`). -/
inductive VolatileMemoryError where
  | Overflow (base offset : Nat)
  | OutOfBounds (addr : Nat)
deriving DecidableEq, Repr

/-- The non-owning bounds-validated view returned by `get_slice`: a raw pointer
(`base + offset`) and a length. -/
structure VolatileSlice where
  addr : Nat
  size : Nat
deriving DecidableEq, Repr

/-- `sys_util::mmap::Protection`: a wrapped platform protection-flag integer. -/
structure Protection where
  flags : Nat
deriving DecidableEq, Repr

def PROT_NONE : Nat := 0
def PROT_READ : Nat := 1
def PROT_WRITE : Nat := 2

def Protection.none : Protection := ⟨PROT_NONE⟩

def Protection.read_write : Protection := ⟨PROT_READ ||| PROT_WRITE⟩

def Protection.set_read (p : Protection) : Protection := ⟨p.flags ||| PROT_READ⟩

def Protection.set_write (p : Protection) : Protection := ⟨p.flags ||| PROT_WRITE⟩

/-- `MemoryMapping { addr: *mut u8, size: usize }`, together with the bytes the
mapping currently holds (`mem i` is the byte at offset `i`, `i < size`). -/
structure MemoryMapping where
  addr : Nat
  size : Nat
  mem : Nat → Nat

/-- Overlay `data` on `mem` starting at `offset` (the effect of a `memcpy` into
`mem[offset .. offset + data.length]`). -/
def storeBytes (mem : Nat → Nat) (offset : Nat) (data : List Nat) : Nat → Nat :=
  fun i => if offset ≤ i ∧ i < offset + data.length then data.getD (i - offset) 0 else mem i

/-- The bytes `mem[offset .. offset + count]` as a list. -/
def loadBytes (mem : Nat → Nat) (offset count : Nat) : List Nat :=
  (List.range count).map fun i => mem (offset + i)

/-- `MemoryMapping::range_end` (mmap.rs lines 439-445): check that
`offset + count` neither overflows `usize` nor exceeds `size`, and return the sum. -/
def MemoryMapping.range_end (m : MemoryMapping) (offset count : Nat) : Except Error Nat :=
  match checked_add offset count with
  | Option.none => Except.error Error.InvalidAddress
  | Option.some mem_end =>
    if mem_end > m.size then Except.error Error.InvalidAddress else Except.ok mem_end

/-- `MemoryMapping::write_slice` (mmap.rs lines 232-243): fail `InvalidAddress`
when `offset >= size`, otherwise copy through the `Write` impl for `&mut [u8]`,
which copies `min(buf.len(), size - offset)` bytes and cannot fail. -/
def MemoryMapping.write_slice (m : MemoryMapping) (buf : List Nat) (offset : Nat) :
    Except Error (Nat × MemoryMapping) :=
  if offset ≥ m.size then Except.error Error.InvalidAddress
  else
    let n := min buf.length (m.size - offset)
    Except.ok (n, { m with mem := storeBytes m.mem offset (buf.take n) })

/-- `MemoryMapping::read_slice` (mmap.rs lines 261-272): fail `InvalidAddress`
when `offset >= size`, otherwise copy `min(buf.len(), size - offset)` bytes of
the region into the front of `buf` (the `Write` impl for `&mut [u8]`, with the
region slice as data source). -/
def MemoryMapping.read_slice (m : MemoryMapping) (buf : List Nat) (offset : Nat) :
    Except Error (Nat × List Nat) :=
  if offset ≥ m.size then Except.error Error.InvalidAddress
  else
    let n := min buf.length (m.size - offset)
    Except.ok (n, loadBytes m.mem offset n ++ buf.drop n)

/-- `MemoryMapping::write_obj::<T>` (mmap.rs lines 286-295): bounds-check
`size_of::<T>()` at `offset` through `range_end`, then store the value's bit
pattern with a volatile write.  A `T: DataInit` value is identified with its
byte representation `val`, so `size_of::<T>() = val.length`. -/
def MemoryMapping.write_obj (m : MemoryMapping) (val : List Nat) (offset : Nat) :
    Except Error MemoryMapping :=
  match m.range_end offset val.length with
  | Except.error e => Except.error e
  | Except.ok _ => Except.ok { m with mem := storeBytes m.mem offset val }

/-- `MemoryMapping::read_obj::<T>` (mmap.rs lines 313-322): bounds-check
`size_of::<T>()` at `offset` through `range_end`, then volatile-load the
`sz`-byte bit pattern at `offset`. -/
def MemoryMapping.read_obj (m : MemoryMapping) (sz offset : Nat) :
    Except Error (List Nat) :=
  match m.range_end offset sz with
  | Except.error e => Except.error e
  | Except.ok _ => Except.ok (loadBytes m.mem offset sz)

/-- `std::io::Read::read_exact` on a source holding the byte list `src`:
produce exactly `n` bytes, or fail with `UnexpectedEof` when the source runs
short.  (Standard-library semantics, used by `read_to_memory`.) -/
def read_exact (src : List Nat) (n : Nat) : Except IoError (List Nat) :=
  if src.length < n then Except.error IoError.unexpectedEof else Except.ok (src.take n)

/-- `std::io::Write::write_all` on a sink able to absorb `sinkCap` bytes:
write everything or fail.  (Standard-library semantics, used by
`write_from_memory`.) -/
def write_all (sinkCap : Nat) (data : List Nat) : Except IoError (List Nat) :=
  if sinkCap < data.length then Except.error IoError.writeZero else Except.ok data

/-- `MemoryMapping::read_to_memory` (mmap.rs lines 347-362): bounds-check the
destination range, re-wrapping any `range_end` failure as
`InvalidRange(mem_offset, count)`, then `read_exact` `count` bytes from the
source into the region at `mem_offset`. -/
def MemoryMapping.read_to_memory (m : MemoryMapping) (mem_offset : Nat) (src : List Nat)
    (count : Nat) : Except Error MemoryMapping :=
  match m.range_end mem_offset count with
  | Except.error _ => Except.error (Error.InvalidRange mem_offset count)
  | Except.ok _ =>
    match read_exact src count with
    | Except.error e => Except.error (Error.ReadFromSource e)
    | Except.ok data => Except.ok { m with mem := storeBytes m.mem mem_offset data }

/-- `MemoryMapping::write_from_memory` (mmap.rs lines 386-401): bounds-check
the source range, re-wrapping failure as `InvalidRange(mem_offset, count)`,
then `write_all` the `count` bytes at `mem_offset` to the sink; a sink failure
is wrapped (as in the source) under `Error::ReadFromSource`.  Returns the bytes
delivered to the sink. -/
def MemoryMapping.write_from_memory (m : MemoryMapping) (mem_offset sinkCap count : Nat) :
    Except Error (List Nat) :=
  match m.range_end mem_offset count with
  | Except.error _ => Except.error (Error.InvalidRange mem_offset count)
  | Except.ok _ =>
    match write_all sinkCap (loadBytes m.mem mem_offset count) with
    | Except.error e => Except.error (Error.ReadFromSource e)
    | Except.ok written => Except.ok written

/-- Modelled from the spec: `data_model::volatile_memory::calc_offset`
(the `data_model` crate is not under `src/`): "computes `offset + count` with
overflow detection (`Overflow{base, offset}` on failure)" as 64-bit values. -/
def calc_offset (base offset : Nat) : Except VolatileMemoryError Nat :=
  match checked_add_u64 base offset with
  | Option.none => Except.error (VolatileMemoryError.Overflow base offset)
  | Option.some mem_end => Except.ok mem_end

/-- `<MemoryMapping as VolatileMemory>::get_slice` (mmap.rs lines 448-459):
`calc_offset(offset, count)`, compare against `size`, and on success return a
`VolatileSlice` anchored at `addr + offset` and valid for `count` bytes. -/
def MemoryMapping.get_slice (m : MemoryMapping) (offset count : Nat) :
    Except VolatileMemoryError VolatileSlice :=
  match calc_offset offset count with
  | Except.error e => Except.error e
  | Except.ok mem_end =>
    if mem_end > m.size then Except.error (VolatileMemoryError.OutOfBounds mem_end)
    else Except.ok { addr := m.addr + offset, size := count }

/-- The kernel requests the module issues: mapping, unmapping and advisory calls. -/
inductive Syscall where
  | mmap (fd : Int) (size offset : Nat)
  | munmap (addr size : Nat)
  | madvise (addr count : Nat) (advice : Int)
deriving DecidableEq, Repr

def Syscall.isUnmap : Syscall → Bool
  | Syscall.munmap _ _ => true
  | _ => false

def Syscall.isMap : Syscall → Bool
  | Syscall.mmap _ _ _ => true
  | _ => false

def MADV_DONTDUMP : Int := 16
def MADV_REMOVE : Int := 9

/-- The kernel's side of a creation call: whether `mmap` succeeds (and at which
address), the return value of the follow-up `madvise`, and the initial bytes
the new mapping exposes (file contents for file-backed mappings). -/
structure OsEnv where
  mmapResult : Except Int Nat
  madviseRet : Int
  contents : Nat → Nat

/-- `MemoryMapping::new_protection` (mmap.rs lines 128-156): issue the
anonymous shared `mmap`; on failure wrap the errno as `SystemCallFailed`; on
success issue the best-effort `madvise(MADV_DONTDUMP)` (its failure is only
logged) and return the mapping of exactly `size` bytes.  Anonymous mappings
start zero-filled. -/
def new_protection (env : OsEnv) (size : Nat) (_prot : Protection) :
    List Syscall × Except Error MemoryMapping :=
  match env.mmapResult with
  | Except.error e => ([Syscall.mmap (-1) size 0], Except.error (Error.SystemCallFailed e))
  | Except.ok addr =>
    ([Syscall.mmap (-1) size 0, Syscall.madvise addr size MADV_DONTDUMP],
     Except.ok { addr := addr, size := size, mem := fun _ => 0 })

/-- `MemoryMapping::new` (mmap.rs lines 119-121): anonymous mapping with
read/write protection. -/
def new (env : OsEnv) (size : Nat) : List Syscall × Except Error MemoryMapping :=
  new_protection env size Protection.read_write

/-- `MemoryMapping::from_fd_offset` (mmap.rs lines 173-204): reject offsets
above `off_t::max_value()` with `InvalidOffset` before any syscall; otherwise
issue the shared file-backed `mmap` (then the best-effort `madvise`).  Byte `i`
of the new mapping is byte `offset + i` of the descriptor's contents. -/
def from_fd_offset (env : OsEnv) (fd : Int) (size offset : Nat) :
    List Syscall × Except Error MemoryMapping :=
  if offset > OFF_T_MAX then ([], Except.error Error.InvalidOffset)
  else
    match env.mmapResult with
    | Except.error e => ([Syscall.mmap fd size offset], Except.error (Error.SystemCallFailed e))
    | Except.ok addr =>
      ([Syscall.mmap fd size offset, Syscall.madvise addr size MADV_DONTDUMP],
       Except.ok { addr := addr, size := size, mem := fun i => env.contents (offset + i) })

/-- `MemoryMapping::from_fd` (mmap.rs lines 163-165). -/
def from_fd (env : OsEnv) (fd : Int) (size : Nat) :
    List Syscall × Except Error MemoryMapping :=
  from_fd_offset env fd size 0

/-- `MemoryMapping::remove_range` (mmap.rs lines 405-422): bounds-check
(re-wrapped as `InvalidRange`), then issue `madvise(addr + offset, count,
MADV_REMOVE)`; a negative return from the advisory also surfaces as
`InvalidRange`.  Returns the syscall trace next to the result. -/
def MemoryMapping.remove_range (m : MemoryMapping) (madviseRet : Int)
    (mem_offset count : Nat) : List Syscall × Except Error Unit :=
  match m.range_end mem_offset count with
  | Except.error _ => ([], Except.error (Error.InvalidRange mem_offset count))
  | Except.ok _ =>
    ([Syscall.madvise (m.addr + mem_offset) count MADV_REMOVE],
     if madviseRet < 0 then Except.error (Error.InvalidRange mem_offset count)
     else Except.ok ())

/-- `<MemoryMapping as Drop>::drop` (mmap.rs lines 461-469): one `munmap` of
the full originally-mapped span. -/
def MemoryMapping.dropTrace (m : MemoryMapping) : List Syscall :=
  [Syscall.munmap m.addr m.size]

/-- One accessor invocation, for reasoning about arbitrary accessor sequences. -/
inductive Op where
  | opWriteSlice (buf : List Nat) (offset : Nat)
  | opReadSlice (buf : List Nat) (offset : Nat)
  | opWriteObj (val : List Nat) (offset : Nat)
  | opReadObj (sz offset : Nat)
  | opReadToMemory (mem_offset : Nat) (src : List Nat) (count : Nat)
  | opWriteFromMemory (mem_offset sinkCap count : Nat)
  | opRemoveRange (madviseRet : Int) (mem_offset count : Nat)
  | opGetSlice (offset count : Nat)

/-- Run one accessor on the region: the resulting region state and the syscalls
the accessor issued.  Only `remove_range` ever performs a syscall. -/
def runOp (m : MemoryMapping) : Op → MemoryMapping × List Syscall
  | Op.opWriteSlice buf off =>
    match m.write_slice buf off with
    | Except.ok (_, m') => (m', [])
    | Except.error _ => (m, [])
  | Op.opReadSlice _ _ => (m, [])
  | Op.opWriteObj val off =>
    match m.write_obj val off with
    | Except.ok m' => (m', [])
    | Except.error _ => (m, [])
  | Op.opReadObj _ _ => (m, [])
  | Op.opReadToMemory moff src cnt =>
    match m.read_to_memory moff src cnt with
    | Except.ok m' => (m', [])
    | Except.error _ => (m, [])
  | Op.opWriteFromMemory _ _ _ => (m, [])
  | Op.opRemoveRange ret moff cnt => (m, (m.remove_range ret moff cnt).1)
  | Op.opGetSlice _ _ => (m, [])

/-- Run a sequence of accessors, collecting the syscall trace. -/
def runOps (m : MemoryMapping) : List Op → MemoryMapping × List Syscall
  | [] => (m, [])
  | op :: ops =>
    let r := runOp m op
    let r' := runOps r.1 ops
    (r'.1, r.2 ++ r'.2)

/-- Little-endian byte representation of a `u64` value (its `DataInit` bit
pattern on the x86-64 targets crosvm supports). -/
def u64ToLEBytes (v : Nat) : List Nat :=
  (List.range 8).map fun i => v / 2 ^ (8 * i) % 256

/-- Reassemble a `u64` from its little-endian bytes. -/
def leBytesToU64 (bs : List Nat) : Nat :=
  bs.foldr (fun b acc => b + 256 * acc) 0

/-- `write_obj::<u64>`. -/
def MemoryMapping.write_obj_u64 (m : MemoryMapping) (v offset : Nat) :
    Except Error MemoryMapping :=
  m.write_obj (u64ToLEBytes v) offset

/-- `read_obj::<u64>`. -/
def MemoryMapping.read_obj_u64 (m : MemoryMapping) (offset : Nat) : Except Error Nat :=
  match m.read_obj 8 offset with
  | Except.error e => Except.error e
  | Except.ok bs => Except.ok (leBytesToU64 bs)

/-- Replace the byte contents of a mapping (the effect of writing through the
mapping: `addr` and `size` are untouched). -/
def MemoryMapping.withMem (m : MemoryMapping) (f : Nat → Nat) : MemoryMapping :=
  { m with mem := f }

/-- An environment in which the kernel grants the mapping (at page 4096),
`madvise` succeeds, and a fresh mapping reads as zero. -/
def okEnv : OsEnv := { mmapResult := Except.ok 4096, madviseRet := 0, contents := fun _ => 0 }

/-- A concrete anonymous region of `size` bytes, as `MemoryMapping::new`
produces it in a healthy environment. -/
def anonRegion (size : Nat) : MemoryMapping :=
  { addr := 4096, size := size, mem := fun _ => 0 }

/-! ## Helper lemmas -/

theorem withMem_mem (m : MemoryMapping) (f : Nat → Nat) : (m.withMem f).mem = f := rfl

theorem withMem_size (m : MemoryMapping) (f : Nat → Nat) : (m.withMem f).size = m.size := rfl

theorem withMem_addr (m : MemoryMapping) (f : Nat → Nat) : (m.withMem f).addr = m.addr := rfl

theorem storeBytes_inside (mem : Nat → Nat) (off : Nat) (data : List Nat) (i : Nat)
    (h : i < data.length) : storeBytes mem off data (off + i) = data.getD i 0 := by
  simp only [storeBytes]
  rw [if_pos ⟨Nat.le_add_right _ _, by omega⟩]
  congr 1
  omega

theorem storeBytes_outside (mem : Nat → Nat) (off : Nat) (data : List Nat) (i : Nat)
    (h : i < off ∨ off + data.length ≤ i) : storeBytes mem off data i = mem i := by
  simp only [storeBytes]
  rw [if_neg (by omega)]

theorem loadBytes_length (mem : Nat → Nat) (off n : Nat) : (loadBytes mem off n).length = n := by
  simp [loadBytes]

theorem loadBytes_storeBytes (mem : Nat → Nat) (off : Nat) (data : List Nat) :
    loadBytes (storeBytes mem off data) off data.length = data := by
  apply List.ext_getElem
  · simp [loadBytes]
  · intro i h1 h2
    simp only [loadBytes, List.getElem_map, List.getElem_range]
    rw [storeBytes_inside _ _ _ _ h2]
    exact List.getD_eq_getElem _ _ h2

theorem getD_take (l : List Nat) (n i : Nat) (h : i < n) :
    (l.take n).getD i 0 = l.getD i 0 := by
  by_cases hi : i < l.length
  · rw [List.getD_eq_getElem _ _ (by simp; omega), List.getD_eq_getElem _ _ hi]
    simp [List.getElem_take]
  · rw [List.getD_eq_default _ _ (by simp; omega), List.getD_eq_default _ _ (by omega)]

theorem write_slice_eq (m : MemoryMapping) (buf : List Nat) (offset : Nat)
    (h : offset < m.size) :
    m.write_slice buf offset = Except.ok (min buf.length (m.size - offset),
      m.withMem (storeBytes m.mem offset (buf.take (min buf.length (m.size - offset))))) := by
  simp [MemoryMapping.write_slice, Nat.not_le.mpr h, MemoryMapping.withMem]

theorem read_slice_eq (m : MemoryMapping) (buf : List Nat) (offset : Nat)
    (h : offset < m.size) :
    m.read_slice buf offset = Except.ok (min buf.length (m.size - offset),
      loadBytes m.mem offset (min buf.length (m.size - offset)) ++
        buf.drop (min buf.length (m.size - offset))) := by
  simp [MemoryMapping.read_slice, Nat.not_le.mpr h]

theorem range_end_ok_of (m : MemoryMapping) (offset count : Nat)
    (h1 : offset + count ≤ USIZE_MAX) (h2 : offset + count ≤ m.size) :
    m.range_end offset count = Except.ok (offset + count) := by
  simp [MemoryMapping.range_end, checked_add, h1, Nat.not_lt.mpr h2]

theorem range_end_error_of (m : MemoryMapping) (offset count : Nat)
    (h : offset + count > USIZE_MAX ∨ offset + count > m.size) :
    m.range_end offset count = Except.error Error.InvalidAddress := by
  by_cases h1 : offset + count ≤ USIZE_MAX
  · have h2 : offset + count > m.size := by omega
    simp [MemoryMapping.range_end, checked_add, h1, h2]
  · simp [MemoryMapping.range_end, checked_add, h1]

theorem range_end_ok_inv (m : MemoryMapping) (offset count mem_end : Nat)
    (h : m.range_end offset count = Except.ok mem_end) :
    mem_end = offset + count ∧ offset + count ≤ USIZE_MAX ∧ offset + count ≤ m.size := by
  by_cases h1 : offset + count ≤ USIZE_MAX
  · by_cases h2 : offset + count ≤ m.size
    · rw [range_end_ok_of m offset count h1 h2] at h
      cases h
      exact ⟨rfl, h1, h2⟩
    · rw [range_end_error_of m offset count (by omega)] at h
      cases h
  · rw [range_end_error_of m offset count (by omega)] at h
    cases h

theorem read_exact_ok_inv (src : List Nat) (n : Nat) (data : List Nat)
    (h : read_exact src n = Except.ok data) : data = src.take n ∧ n ≤ src.length := by
  unfold read_exact at h
  split at h
  · cases h
  · rename_i hlen
    simp only [Except.ok.injEq] at h
    exact ⟨h.symm, by omega⟩

theorem write_slice_ok_inv (m : MemoryMapping) (buf : List Nat) (off n : Nat)
    (m' : MemoryMapping) (h : m.write_slice buf off = Except.ok (n, m')) :
    off < m.size ∧ n = min buf.length (m.size - off) ∧
      ∀ i, i < off ∨ off + n ≤ i → m'.mem i = m.mem i := by
  by_cases hoff : off ≥ m.size
  · simp [MemoryMapping.write_slice, hoff] at h
  · push_neg at hoff
    rw [write_slice_eq m buf off hoff] at h
    simp only [Except.ok.injEq, Prod.mk.injEq] at h
    refine ⟨hoff, h.1.symm, ?_⟩
    intro i hi
    rw [← h.2, withMem_mem]
    refine storeBytes_outside _ _ _ _ ?_
    simp only [List.length_take]
    omega

theorem read_slice_ok_inv (m : MemoryMapping) (buf : List Nat) (off n : Nat)
    (out : List Nat) (h : m.read_slice buf off = Except.ok (n, out)) :
    off < m.size ∧ n = min buf.length (m.size - off) := by
  by_cases hoff : off ≥ m.size
  · simp [MemoryMapping.read_slice, hoff] at h
  · push_neg at hoff
    rw [read_slice_eq m buf off hoff] at h
    simp only [Except.ok.injEq, Prod.mk.injEq] at h
    exact ⟨hoff, h.1.symm⟩

theorem write_slice_preserves (m : MemoryMapping) (buf : List Nat) (off n : Nat)
    (m' : MemoryMapping) (h : m.write_slice buf off = Except.ok (n, m')) :
    m'.addr = m.addr ∧ m'.size = m.size := by
  by_cases hoff : off ≥ m.size
  · simp [MemoryMapping.write_slice, hoff] at h
  · rw [write_slice_eq m buf off (by omega)] at h
    simp only [Except.ok.injEq, Prod.mk.injEq] at h
    rw [← h.2]
    exact ⟨rfl, rfl⟩

theorem write_obj_ok_inv (m : MemoryMapping) (val : List Nat) (off : Nat)
    (m' : MemoryMapping) (h : m.write_obj val off = Except.ok m') :
    off + val.length ≤ USIZE_MAX ∧ off + val.length ≤ m.size ∧
      ∀ i, i < off ∨ off + val.length ≤ i → m'.mem i = m.mem i := by
  unfold MemoryMapping.write_obj at h
  split at h
  · cases h
  · rename_i me heq
    obtain ⟨-, h1, h2⟩ := range_end_ok_inv m off val.length me heq
    refine ⟨h1, h2, ?_⟩
    simp only [Except.ok.injEq] at h
    intro i hi
    rw [← h]
    exact storeBytes_outside _ _ _ _ hi

theorem write_obj_preserves (m : MemoryMapping) (val : List Nat) (off : Nat)
    (m' : MemoryMapping) (h : m.write_obj val off = Except.ok m') :
    m'.addr = m.addr ∧ m'.size = m.size := by
  unfold MemoryMapping.write_obj at h
  split at h
  · cases h
  · simp only [Except.ok.injEq] at h
    rw [← h]
    exact ⟨rfl, rfl⟩

theorem write_obj_overflow (m : MemoryMapping) (val : List Nat) (off : Nat)
    (h : off + val.length > USIZE_MAX) :
    m.write_obj val off = Except.error Error.InvalidAddress := by
  rw [MemoryMapping.write_obj, range_end_error_of m off val.length (Or.inl h)]

theorem read_obj_ok_inv (m : MemoryMapping) (sz off : Nat) (out : List Nat)
    (h : m.read_obj sz off = Except.ok out) :
    off + sz ≤ USIZE_MAX ∧ off + sz ≤ m.size := by
  unfold MemoryMapping.read_obj at h
  split at h
  · cases h
  · rename_i me heq
    exact (range_end_ok_inv m off sz me heq).2

theorem read_obj_overflow (m : MemoryMapping) (sz off : Nat)
    (h : off + sz > USIZE_MAX) :
    m.read_obj sz off = Except.error Error.InvalidAddress := by
  rw [MemoryMapping.read_obj, range_end_error_of m off sz (Or.inl h)]

theorem read_to_memory_ok_inv (m : MemoryMapping) (moff : Nat) (src : List Nat)
    (cnt : Nat) (m' : MemoryMapping) (h : m.read_to_memory moff src cnt = Except.ok m') :
    moff + cnt ≤ USIZE_MAX ∧ moff + cnt ≤ m.size ∧
      ∀ i, i < moff ∨ moff + cnt ≤ i → m'.mem i = m.mem i := by
  unfold MemoryMapping.read_to_memory at h
  split at h
  · cases h
  · rename_i me heq
    obtain ⟨-, h1, h2⟩ := range_end_ok_inv m moff cnt me heq
    refine ⟨h1, h2, ?_⟩
    split at h
    · cases h
    · rename_i data hre
      obtain ⟨hdata, hlen⟩ := read_exact_ok_inv src cnt data hre
      simp only [Except.ok.injEq] at h
      intro i hi
      rw [← h]
      refine storeBytes_outside _ _ _ _ ?_
      rw [hdata]
      simp only [List.length_take]
      omega

theorem read_to_memory_preserves (m : MemoryMapping) (moff : Nat) (src : List Nat)
    (cnt : Nat) (m' : MemoryMapping) (h : m.read_to_memory moff src cnt = Except.ok m') :
    m'.addr = m.addr ∧ m'.size = m.size := by
  unfold MemoryMapping.read_to_memory at h
  split at h
  · cases h
  · split at h
    · cases h
    · simp only [Except.ok.injEq] at h
      rw [← h]
      exact ⟨rfl, rfl⟩

theorem read_to_memory_overflow (m : MemoryMapping) (moff : Nat) (src : List Nat)
    (cnt : Nat) (h : moff + cnt > USIZE_MAX) :
    m.read_to_memory moff src cnt = Except.error (Error.InvalidRange moff cnt) := by
  rw [MemoryMapping.read_to_memory, range_end_error_of m moff cnt (Or.inl h)]

theorem write_from_memory_ok_inv (m : MemoryMapping) (moff cap cnt : Nat)
    (out : List Nat) (h : m.write_from_memory moff cap cnt = Except.ok out) :
    moff + cnt ≤ USIZE_MAX ∧ moff + cnt ≤ m.size := by
  unfold MemoryMapping.write_from_memory at h
  split at h
  · cases h
  · rename_i me heq
    exact (range_end_ok_inv m moff cnt me heq).2

theorem write_from_memory_overflow (m : MemoryMapping) (moff cap cnt : Nat)
    (h : moff + cnt > USIZE_MAX) :
    m.write_from_memory moff cap cnt = Except.error (Error.InvalidRange moff cnt) := by
  rw [MemoryMapping.write_from_memory, range_end_error_of m moff cnt (Or.inl h)]

theorem remove_range_trace_inv (m : MemoryMapping) (ret : Int) (moff cnt : Nat)
    (h : (m.remove_range ret moff cnt).1 ≠ []) :
    moff + cnt ≤ USIZE_MAX ∧ moff + cnt ≤ m.size := by
  unfold MemoryMapping.remove_range at h
  split at h
  · simp at h
  · rename_i me heq
    exact (range_end_ok_inv m moff cnt me heq).2

theorem get_slice_overflow (m : MemoryMapping) (offset count : Nat)
    (h : offset + count > U64_MAX) :
    m.get_slice offset count = Except.error (VolatileMemoryError.Overflow offset count) := by
  simp [MemoryMapping.get_slice, calc_offset, checked_add_u64, Nat.not_le.mpr h]

theorem get_slice_oob (m : MemoryMapping) (offset count : Nat)
    (h1 : offset + count ≤ U64_MAX) (h2 : offset + count > m.size) :
    m.get_slice offset count =
      Except.error (VolatileMemoryError.OutOfBounds (offset + count)) := by
  simp [MemoryMapping.get_slice, calc_offset, checked_add_u64, h1, h2]

theorem get_slice_ok (m : MemoryMapping) (offset count : Nat)
    (h1 : offset + count ≤ U64_MAX) (h2 : offset + count ≤ m.size) :
    m.get_slice offset count = Except.ok { addr := m.addr + offset, size := count } := by
  simp [MemoryMapping.get_slice, calc_offset, checked_add_u64, h1, Nat.not_lt.mpr h2]

theorem get_slice_ok_inv (m : MemoryMapping) (off cnt : Nat) (s : VolatileSlice)
    (h : m.get_slice off cnt = Except.ok s) :
    off + cnt ≤ U64_MAX ∧ off + cnt ≤ m.size := by
  by_cases h1 : off + cnt ≤ U64_MAX
  · by_cases h2 : off + cnt ≤ m.size
    · exact ⟨h1, h2⟩
    · rw [get_slice_oob m off cnt h1 (by omega)] at h
      cases h
  · rw [get_slice_overflow m off cnt (by omega)] at h
    cases h

theorem runOps_cons (m : MemoryMapping) (op : Op) (ops : List Op) :
    runOps m (op :: ops) =
      ((runOps (runOp m op).1 ops).1, (runOp m op).2 ++ (runOps (runOp m op).1 ops).2) := rfl

theorem runOp_no_map_no_unmap (m : MemoryMapping) (op : Op) :
    (runOp m op).2.countP (fun s => s.isUnmap) = 0 ∧
    (runOp m op).2.countP (fun s => s.isMap) = 0 ∧
    (runOp m op).1.addr = m.addr ∧ (runOp m op).1.size = m.size := by
  cases op with
  | opWriteSlice buf off =>
    cases h : m.write_slice buf off with
    | error e => simp [runOp, h]
    | ok p =>
      obtain ⟨ha, hs⟩ := write_slice_preserves m buf off p.1 p.2 (by rw [h])
      simp [runOp, h, ha, hs]
  | opReadSlice buf off => simp [runOp]
  | opWriteObj val off =>
    cases h : m.write_obj val off with
    | error e => simp [runOp, h]
    | ok m' =>
      obtain ⟨ha, hs⟩ := write_obj_preserves m val off m' h
      simp [runOp, h, ha, hs]
  | opReadObj sz off => simp [runOp]
  | opReadToMemory moff src cnt =>
    cases h : m.read_to_memory moff src cnt with
    | error e => simp [runOp, h]
    | ok m' =>
      obtain ⟨ha, hs⟩ := read_to_memory_preserves m moff src cnt m' h
      simp [runOp, h, ha, hs]
  | opWriteFromMemory moff cap cnt => simp [runOp]
  | opRemoveRange ret moff cnt =>
    have htr : ∀ s ∈ (m.remove_range ret moff cnt).1, s.isUnmap = false ∧ s.isMap = false := by
      unfold MemoryMapping.remove_range
      split
      · intro s hs
        cases hs
      · intro s hs
        simp only [List.mem_singleton] at hs
        subst hs
        exact ⟨rfl, rfl⟩
    refine ⟨?_, ?_, rfl, rfl⟩
    · rw [show (runOp m (Op.opRemoveRange ret moff cnt)).2 =
          (m.remove_range ret moff cnt).1 from rfl, List.countP_eq_zero]
      intro s hs
      simp [(htr s hs).1]
    · rw [show (runOp m (Op.opRemoveRange ret moff cnt)).2 =
          (m.remove_range ret moff cnt).1 from rfl, List.countP_eq_zero]
      intro s hs
      simp [(htr s hs).2]
  | opGetSlice off cnt => simp [runOp]

/-! ## Claim theorems -/

/-- C1: for a region of size `S`, `write_slice(buf, offset)` returns
`Err(InvalidAddress)` iff `offset >= S`; otherwise `Ok(n)` with
`n = min(buf.len(), S - offset)` and the first `n` bytes of `buf` stored at
offsets `offset..offset+n` (everything else untouched) — it never fails merely
because `buf` is longer than the remaining room.  `read_slice` truncates
symmetrically: it returns `Ok(n)` with the first `n` bytes of the buffer
replaced by the region's bytes at `offset..offset+n` and the rest of the
buffer unchanged. -/
theorem write_read_slice_spec (m : MemoryMapping) (buf : List Nat) (offset : Nat) :
    (offset ≥ m.size → m.write_slice buf offset = Except.error Error.InvalidAddress) ∧
    (offset < m.size →
      ∃ m', m.write_slice buf offset = Except.ok (min buf.length (m.size - offset), m') ∧
        m'.size = m.size ∧ m'.addr = m.addr ∧
        (∀ i, i < min buf.length (m.size - offset) → m'.mem (offset + i) = buf.getD i 0) ∧
        (∀ i, i < offset ∨ offset + min buf.length (m.size - offset) ≤ i →
          m'.mem i = m.mem i)) ∧
    (offset ≥ m.size → m.read_slice buf offset = Except.error Error.InvalidAddress) ∧
    (offset < m.size →
      ∃ out, m.read_slice buf offset = Except.ok (min buf.length (m.size - offset), out) ∧
        out.length = buf.length ∧
        (∀ i, i < min buf.length (m.size - offset) → out.getD i 0 = m.mem (offset + i)) ∧
        (∀ i, min buf.length (m.size - offset) ≤ i → out.getD i 0 = buf.getD i 0)) := by
  refine ⟨fun h => ?_, fun h => ?_, fun h => ?_, fun h => ?_⟩
  · simp [MemoryMapping.write_slice, h]
  · refine ⟨_, write_slice_eq m buf offset h, withMem_size _ _, withMem_addr _ _, ?_, ?_⟩
    · intro i hi
      rw [withMem_mem, storeBytes_inside _ _ _ _ (by simp; omega)]
      exact getD_take _ _ _ hi
    · intro i hi
      rw [withMem_mem]
      exact storeBytes_outside _ _ _ _ (by simp; omega)
  · simp [MemoryMapping.read_slice, h]
  · refine ⟨_, read_slice_eq m buf offset h, ?_, ?_, ?_⟩
    · simp [loadBytes]
    · intro i hi
      rw [List.getD_eq_getElem _ _ (by simp [loadBytes]; omega)]
      simp [loadBytes, List.getElem_append, hi]
    · intro i hi
      by_cases hb : i < buf.length
      · rw [List.getD_eq_getElem _ _ (by simp [loadBytes]; omega),
          List.getD_eq_getElem _ _ hb]
        simp only [List.getElem_append]
        rw [dif_neg (by simp [loadBytes]; omega)]
        simp only [loadBytes_length, List.getElem_drop]
        congr 1
        omega
      · rw [List.getD_eq_default _ _ (by simp [loadBytes]; omega),
          List.getD_eq_default _ _ (by omega)]

/-- C1 witness: the spec's own example — writing `[1,2,3,4,5,6]` at offset 0 of
a 5-byte region succeeds, returns 5, and bytes `[1,2,3,4,5]` land at offsets
`0..5`. -/
theorem write_read_slice_spec_witness :
    (0 : Nat) < (anonRegion 5).size ∧
    ∃ m', (anonRegion 5).write_slice [1, 2, 3, 4, 5, 6] 0 = Except.ok (5, m') ∧
      (∀ i, i < 5 → m'.mem (0 + i) = ([1, 2, 3, 4, 5, 6] : List Nat).getD i 0) := by
  refine ⟨by decide, ?_⟩
  obtain ⟨-, h2, -, -⟩ := write_read_slice_spec (anonRegion 5) [1, 2, 3, 4, 5, 6] 0
  obtain ⟨m', heq, -, -, hin, -⟩ := h2 (by decide)
  refine ⟨m', ?_, ?_⟩
  · simpa [anonRegion] using heq
  · intro i hi
    exact hin i (by simpa [anonRegion] using hi)

/-- C2: `write_obj::<T>(val, offset)` and `read_obj::<T>(offset)` return
`Err(InvalidAddress)` exactly when `offset + size_of::<T>()` overflows the
native word (detected by checked addition, not wraparound) or exceeds the
region size; under the complementary precondition they succeed (with the
stored/loaded bit pattern made explicit). -/
theorem obj_bounds_spec (m : MemoryMapping) (val : List Nat) (sz offset : Nat) :
    (m.write_obj val offset = Except.error Error.InvalidAddress ↔
      offset + val.length > USIZE_MAX ∨ offset + val.length > m.size) ∧
    (offset + val.length ≤ USIZE_MAX → offset + val.length ≤ m.size →
      m.write_obj val offset =
        Except.ok (m.withMem (storeBytes m.mem offset val))) ∧
    (m.read_obj sz offset = Except.error Error.InvalidAddress ↔
      offset + sz > USIZE_MAX ∨ offset + sz > m.size) ∧
    (offset + sz ≤ USIZE_MAX → offset + sz ≤ m.size →
      m.read_obj sz offset = Except.ok (loadBytes m.mem offset sz)) := by
  refine ⟨⟨fun h => ?_, fun h => ?_⟩, fun h1 h2 => ?_, ⟨fun h => ?_, fun h => ?_⟩,
    fun h1 h2 => ?_⟩
  · by_contra hc
    push_neg at hc
    rw [MemoryMapping.write_obj, range_end_ok_of m offset val.length hc.1 hc.2] at h
    cases h
  · rw [MemoryMapping.write_obj, range_end_error_of m offset val.length h]
  · rw [MemoryMapping.write_obj, range_end_ok_of m offset val.length h1 h2]
    rfl
  · by_contra hc
    push_neg at hc
    rw [MemoryMapping.read_obj, range_end_ok_of m offset sz hc.1 hc.2] at h
    cases h
  · rw [MemoryMapping.read_obj, range_end_error_of m offset sz h]
  · rw [MemoryMapping.read_obj, range_end_ok_of m offset sz h1 h2]

/-- C2 witness: on a 5-byte region, a 4-byte store at offset 3 fails
`InvalidAddress` and a 4-byte load at offset 0 succeeds. -/
theorem obj_bounds_spec_witness :
    (anonRegion 5).write_obj [1, 2, 3, 4] 3 = Except.error Error.InvalidAddress ∧
    (anonRegion 5).read_obj 4 0 = Except.ok (loadBytes (anonRegion 5).mem 0 4) := by
  constructor
  · exact (obj_bounds_spec (anonRegion 5) [1, 2, 3, 4] 4 3).1.mpr (Or.inr (by decide))
  · exact (obj_bounds_spec (anonRegion 5) [1, 2, 3, 4] 4 0).2.2.2 (by decide) (by decide)

/-- C3: round-trip — for every in-bounds offset, a successful
`write_obj(v, offset)` followed by `read_obj::<T>(offset)` (no intervening
modification) returns `Ok(v)`; in particular `write_object(55u64, 16)` then
`read_object::<u64>(16)` returns `55`. -/
theorem write_read_obj_roundtrip (m : MemoryMapping) (val : List Nat) (offset : Nat)
    (hword : offset + val.length ≤ USIZE_MAX) (hbound : offset + val.length ≤ m.size) :
    (∃ m', m.write_obj val offset = Except.ok m' ∧
      m'.read_obj val.length offset = Except.ok val) ∧
    ((anonRegion 24).write_obj_u64 55 16).map (fun r => r.read_obj_u64 16) =
      Except.ok (Except.ok 55) := by
  constructor
  · refine ⟨m.withMem (storeBytes m.mem offset val), ?_, ?_⟩
    · rw [MemoryMapping.write_obj, range_end_ok_of m offset val.length hword hbound]
      rfl
    · rw [MemoryMapping.read_obj, range_end_ok_of _ offset val.length hword (by
        rw [withMem_size]; exact hbound)]
      rw [withMem_mem, loadBytes_storeBytes]
  · rfl

/-- C3 witness: the `u64` instance — storing the bit pattern of `55u64` at
offset 16 of a 24-byte region and reading it back yields `55`. -/
theorem write_read_obj_roundtrip_witness :
    16 + (u64ToLEBytes 55).length ≤ USIZE_MAX ∧
    16 + (u64ToLEBytes 55).length ≤ (anonRegion 24).size ∧
    ((∃ m', (anonRegion 24).write_obj (u64ToLEBytes 55) 16 = Except.ok m' ∧
        m'.read_obj (u64ToLEBytes 55).length 16 = Except.ok (u64ToLEBytes 55)) ∧
      ((anonRegion 24).write_obj_u64 55 16).map (fun r => r.read_obj_u64 16) =
        Except.ok (Except.ok 55)) :=
  ⟨by decide, by decide,
    write_read_obj_roundtrip (anonRegion 24) (u64ToLEBytes 55) 16 (by decide) (by decide)⟩

/-- C4: `get_slice(offset, count)` fails `Overflow{base: offset, offset: count}`
when `offset + count` overflows a `u64`, fails `OutOfBounds{addr: offset+count}`
when the sum exceeds the region size, and otherwise returns a view anchored at
`base + offset` valid for exactly `count` bytes. -/
theorem get_slice_spec (m : MemoryMapping) (offset count : Nat) :
    (offset + count > U64_MAX →
      m.get_slice offset count = Except.error (VolatileMemoryError.Overflow offset count)) ∧
    (offset + count ≤ U64_MAX → offset + count > m.size →
      m.get_slice offset count =
        Except.error (VolatileMemoryError.OutOfBounds (offset + count))) ∧
    (offset + count ≤ U64_MAX → offset + count ≤ m.size →
      m.get_slice offset count =
        Except.ok { addr := m.addr + offset, size := count }) :=
  ⟨get_slice_overflow m offset count, get_slice_oob m offset count,
    get_slice_ok m offset count⟩

/-- C4 witness: `get_slice(u64::MAX, 3)` fails `Overflow{base: u64::MAX,
offset: 3}`, and `get_slice(3, 3)` on a 5-byte region fails
`OutOfBounds{addr: 6}`. -/
theorem get_slice_spec_witness :
    (anonRegion 5).get_slice U64_MAX 3 =
      Except.error (VolatileMemoryError.Overflow U64_MAX 3) ∧
    (anonRegion 5).get_slice 3 3 = Except.error (VolatileMemoryError.OutOfBounds 6) := by
  constructor
  · exact (get_slice_spec (anonRegion 5) U64_MAX 3).1 (by decide)
  · exact (get_slice_spec (anonRegion 5) 3 3).2.1 (by decide) (by decide)

/-- C5: `read_to_memory` and `write_from_memory` fail with the caller-facing
`InvalidRange(mem_offset, count)` exactly when `mem_offset + count` overflows
or exceeds the size; on a valid range, `read_to_memory` transfers exactly
`count` bytes or fails `ReadFromSource` on a short source (never a silent
partial transfer), and a short/failed sink write in `write_from_memory` also
surfaces under `ReadFromSource`. -/
theorem stream_transfer_spec (m : MemoryMapping) (moff count sinkCap : Nat)
    (src : List Nat) :
    (moff + count > USIZE_MAX ∨ moff + count > m.size →
      m.read_to_memory moff src count = Except.error (Error.InvalidRange moff count) ∧
      m.write_from_memory moff sinkCap count =
        Except.error (Error.InvalidRange moff count)) ∧
    (moff + count ≤ USIZE_MAX → moff + count ≤ m.size →
      (src.length < count →
        m.read_to_memory moff src count =
          Except.error (Error.ReadFromSource IoError.unexpectedEof)) ∧
      (count ≤ src.length →
        ∃ m', m.read_to_memory moff src count = Except.ok m' ∧
          m'.size = m.size ∧ m'.addr = m.addr ∧
          (∀ i, i < count → m'.mem (moff + i) = src.getD i 0) ∧
          (∀ i, i < moff ∨ moff + count ≤ i → m'.mem i = m.mem i)) ∧
      (sinkCap < count →
        m.write_from_memory moff sinkCap count =
          Except.error (Error.ReadFromSource IoError.writeZero)) ∧
      (count ≤ sinkCap →
        m.write_from_memory moff sinkCap count =
          Except.ok (loadBytes m.mem moff count) ∧
          (loadBytes m.mem moff count).length = count)) := by
  constructor
  · intro h
    constructor
    · rw [MemoryMapping.read_to_memory, range_end_error_of m moff count h]
    · rw [MemoryMapping.write_from_memory, range_end_error_of m moff count h]
  · intro h1 h2
    refine ⟨fun hs => ?_, fun hs => ?_, fun hs => ?_, fun hs => ?_⟩
    · rw [MemoryMapping.read_to_memory, range_end_ok_of m moff count h1 h2]
      simp [read_exact, hs]
    · refine ⟨m.withMem (storeBytes m.mem moff (src.take count)), ?_,
        withMem_size _ _, withMem_addr _ _, ?_, ?_⟩
      · rw [MemoryMapping.read_to_memory, range_end_ok_of m moff count h1 h2]
        simp [read_exact, Nat.not_lt.mpr hs, MemoryMapping.withMem]
      · intro i hi
        rw [withMem_mem, storeBytes_inside _ _ _ _ (by simp; omega)]
        exact getD_take _ _ _ hi
      · intro i hi
        rw [withMem_mem]
        exact storeBytes_outside _ _ _ _ (by simp; omega)
    · rw [MemoryMapping.write_from_memory, range_end_ok_of m moff count h1 h2]
      simp [write_all, loadBytes_length, hs]
    · rw [MemoryMapping.write_from_memory, range_end_ok_of m moff count h1 h2]
      simp [write_all, loadBytes_length, Nat.not_lt.mpr hs]

/-- C5 witness: on a 5-byte region, a 2-byte transfer at offset 4 fails
`InvalidRange(4, 2)`, and a 3-byte transfer at offset 1 from a 4-byte source
succeeds and lands exactly the first 3 source bytes at offsets `1..4`. -/
theorem stream_transfer_spec_witness :
    (anonRegion 5).read_to_memory 4 [7] 2 = Except.error (Error.InvalidRange 4 2) ∧
    ∃ m', (anonRegion 5).read_to_memory 1 [7, 8, 9, 10] 3 = Except.ok m' ∧
      m'.size = (anonRegion 5).size ∧ m'.addr = (anonRegion 5).addr ∧
      (∀ i, i < 3 → m'.mem (1 + i) = ([7, 8, 9, 10] : List Nat).getD i 0) ∧
      (∀ i, i < 1 ∨ 1 + 3 ≤ i → m'.mem i = (anonRegion 5).mem i) := by
  constructor
  · exact ((stream_transfer_spec (anonRegion 5) 4 2 0 [7]).1 (Or.inr (by decide))).1
  · exact ((stream_transfer_spec (anonRegion 5) 1 3 0 [7, 8, 9, 10]).2
      (by decide) (by decide)).2.1 (by decide)

/-- C6: `from_fd_offset(fd, size, offset)` with `offset` greater than
`off_t::max_value()` returns `Err(InvalidOffset)` with an empty syscall trace
(no mapping syscall is issued); offsets within range proceed to the `mmap`
syscall. -/
theorem from_fd_offset_spec (env : OsEnv) (fd : Int) (size offset : Nat) :
    (offset > OFF_T_MAX →
      from_fd_offset env fd size offset = ([], Except.error Error.InvalidOffset)) ∧
    (offset ≤ OFF_T_MAX →
      (from_fd_offset env fd size offset).1.head? = some (Syscall.mmap fd size offset)) := by
  constructor
  · intro h
    simp [from_fd_offset, h]
  · intro h
    rw [from_fd_offset, if_neg (Nat.not_lt.mpr h)]
    cases henv : env.mmapResult <;> simp

/-- C6 witness: `offset = off_t::max_value() + 1` is rejected before any
syscall, while `offset = 0` reaches the `mmap` request. -/
theorem from_fd_offset_spec_witness :
    OFF_T_MAX + 1 > OFF_T_MAX ∧
    from_fd_offset okEnv 3 4096 (OFF_T_MAX + 1) = ([], Except.error Error.InvalidOffset) ∧
    (from_fd_offset okEnv 3 4096 0).1.head? = some (Syscall.mmap 3 4096 0) := by
  refine ⟨by omega, ?_, ?_⟩
  · exact (from_fd_offset_spec okEnv 3 4096 (OFF_T_MAX + 1)).1 (by omega)
  · exact (from_fd_offset_spec okEnv 3 4096 0).2 (by decide)

/-- C7: for every `size > 0`, anonymous creation `new(size)` succeeds whenever
the kernel grants the `mmap` request, and the returned region reports exactly
the requested size through its `size` accessor. -/
theorem new_size_spec (env : OsEnv) (size addr : Nat) (hsize : 0 < size)
    (hmmap : env.mmapResult = Except.ok addr) :
    ∃ r, (new env size).2 = Except.ok r ∧ r.size = size := by
  refine ⟨{ addr := addr, size := size, mem := fun _ => 0 }, ?_, rfl⟩
  simp [new, new_protection, hmmap]

/-- C7 witness: `new(1024)` in a healthy environment yields a region of size
1024. -/
theorem new_size_spec_witness :
    (0 : Nat) < 1024 ∧ okEnv.mmapResult = Except.ok 4096 ∧
    ∃ r, (new okEnv 1024).2 = Except.ok r ∧ r.size = 1024 :=
  ⟨by decide, rfl, new_size_spec okEnv 1024 4096 (by decide) rfl⟩

/-- C8: after any sequence of accessor calls, the accumulated syscall trace
contains no unmap and no remap (accessors never unmap or remap, and never
change the region's base or size), and releasing the region issues exactly one
`munmap`, covering the full originally-mapped span `[addr, addr+size)`. -/
theorem release_single_unmap (m : MemoryMapping) (ops : List Op) :
    (runOps m ops).2.countP (fun s => s.isUnmap) = 0 ∧
    (runOps m ops).2.countP (fun s => s.isMap) = 0 ∧
    (runOps m ops).1.addr = m.addr ∧ (runOps m ops).1.size = m.size ∧
    MemoryMapping.dropTrace (runOps m ops).1 = [Syscall.munmap m.addr m.size] ∧
    (MemoryMapping.dropTrace (runOps m ops).1).countP (fun s => s.isUnmap) = 1 := by
  induction ops generalizing m with
  | nil => simp [runOps, MemoryMapping.dropTrace, Syscall.isUnmap]
  | cons op ops ih =>
    obtain ⟨hu, hm, ha, hs⟩ := runOp_no_map_no_unmap m op
    obtain ⟨ihu, ihm, iha, ihs, ihd, ihc⟩ := ih (runOp m op).1
    rw [runOps_cons]
    refine ⟨?_, ?_, ?_, ?_, ?_, ?_⟩
    · rw [List.countP_append, hu, ihu]
    · rw [List.countP_append, hm, ihm]
    · rw [iha, ha]
    · rw [ihs, hs]
    · rw [ihd, ha, hs]
    · rw [ihd, ha, hs]
      simp [Syscall.isUnmap]

/-- C9: every accessor validates `offset + count ≤ size` (with `count` the
bytes the operation touches) before any access: a successful call touches only
in-bounds bytes and leaves everything outside the touched range unchanged,
while a sum that overflows the native word (or `u64` for the volatile-slice
accessor) is a distinct failure — `InvalidAddress`, `InvalidRange` or
`Overflow` — never wraparound. -/
theorem accessors_validate_bounds (m : MemoryMapping) :
    (∀ buf off n m', m.write_slice buf off = Except.ok (n, m') →
      off + n ≤ m.size ∧ ∀ i, i < off ∨ off + n ≤ i → m'.mem i = m.mem i) ∧
    (∀ buf off n out, m.read_slice buf off = Except.ok (n, out) → off + n ≤ m.size) ∧
    (∀ val off m', m.write_obj val off = Except.ok m' →
      off + val.length ≤ USIZE_MAX ∧ off + val.length ≤ m.size ∧
      ∀ i, i < off ∨ off + val.length ≤ i → m'.mem i = m.mem i) ∧
    (∀ val off, off + val.length > USIZE_MAX →
      m.write_obj val off = Except.error Error.InvalidAddress) ∧
    (∀ sz off out, m.read_obj sz off = Except.ok out →
      off + sz ≤ USIZE_MAX ∧ off + sz ≤ m.size) ∧
    (∀ sz off, off + sz > USIZE_MAX →
      m.read_obj sz off = Except.error Error.InvalidAddress) ∧
    (∀ moff src cnt m', m.read_to_memory moff src cnt = Except.ok m' →
      moff + cnt ≤ USIZE_MAX ∧ moff + cnt ≤ m.size ∧
      ∀ i, i < moff ∨ moff + cnt ≤ i → m'.mem i = m.mem i) ∧
    (∀ moff src cnt, moff + cnt > USIZE_MAX →
      m.read_to_memory moff src cnt = Except.error (Error.InvalidRange moff cnt)) ∧
    (∀ moff cap cnt out, m.write_from_memory moff cap cnt = Except.ok out →
      moff + cnt ≤ USIZE_MAX ∧ moff + cnt ≤ m.size) ∧
    (∀ moff cap cnt, moff + cnt > USIZE_MAX →
      m.write_from_memory moff cap cnt = Except.error (Error.InvalidRange moff cnt)) ∧
    (∀ ret moff cnt, (m.remove_range ret moff cnt).1 ≠ [] →
      moff + cnt ≤ USIZE_MAX ∧ moff + cnt ≤ m.size) ∧
    (∀ off cnt s, m.get_slice off cnt = Except.ok s →
      off + cnt ≤ U64_MAX ∧ off + cnt ≤ m.size) ∧
    (∀ off cnt, off + cnt > U64_MAX →
      m.get_slice off cnt = Except.error (VolatileMemoryError.Overflow off cnt)) := by
  refine ⟨?_, ?_, ?_, ?_, ?_, ?_, ?_, ?_, ?_, ?_, ?_, ?_, ?_⟩
  · intro buf off n m' h
    obtain ⟨h1, h2, h3⟩ := write_slice_ok_inv m buf off n m' h
    exact ⟨by omega, h3⟩
  · intro buf off n out h
    obtain ⟨h1, h2⟩ := read_slice_ok_inv m buf off n out h
    omega
  · intro val off m' h
    exact write_obj_ok_inv m val off m' h
  · intro val off h
    exact write_obj_overflow m val off h
  · intro sz off out h
    exact read_obj_ok_inv m sz off out h
  · intro sz off h
    exact read_obj_overflow m sz off h
  · intro moff src cnt m' h
    exact read_to_memory_ok_inv m moff src cnt m' h
  · intro moff src cnt h
    exact read_to_memory_overflow m moff src cnt h
  · intro moff cap cnt out h
    exact write_from_memory_ok_inv m moff cap cnt out h
  · intro moff cap cnt h
    exact write_from_memory_overflow m moff cap cnt h
  · intro ret moff cnt h
    exact remove_range_trace_inv m ret moff cnt h
  · intro off cnt s h
    exact get_slice_ok_inv m off cnt s h
  · intro off cnt h
    exact get_slice_overflow m off cnt h

/-- C9 witness: a one-byte typed store at offset `usize::MAX` fails
`InvalidAddress` (overflow, not wraparound), and a volatile slice of one byte
at offset `u64::MAX` fails `Overflow`. -/
theorem accessors_validate_bounds_witness :
    (anonRegion 5).write_obj [1] USIZE_MAX = Except.error Error.InvalidAddress ∧
    (anonRegion 5).get_slice U64_MAX 1 =
      Except.error (VolatileMemoryError.Overflow U64_MAX 1) := by
  obtain ⟨-, -, -, h4, -, -, -, -, -, -, -, -, h13⟩ := accessors_validate_bounds (anonRegion 5)
  exact ⟨h4 [1] USIZE_MAX (by decide), h13 U64_MAX 1 (by decide)⟩

/-- C10: for every offset below the region size, `write_slice` and
`read_slice` return `Ok` — their `WriteToMemory` / `ReadFromMemory` branches
are unreachable (in-memory slice writes cannot fail) — and no region operation
ever produces the `WriteToMemory` or `ReadFromMemory` error variants. -/
theorem slice_io_variants_unreachable (m : MemoryMapping) (buf : List Nat) (offset : Nat) :
    (offset < m.size →
      (m.write_slice buf offset).isOk = true ∧ (m.read_slice buf offset).isOk = true) ∧
    (∀ e, m.write_slice buf offset ≠ Except.error (Error.WriteToMemory e) ∧
      m.write_slice buf offset ≠ Except.error (Error.ReadFromMemory e)) ∧
    (∀ e, m.read_slice buf offset ≠ Except.error (Error.WriteToMemory e) ∧
      m.read_slice buf offset ≠ Except.error (Error.ReadFromMemory e)) ∧
    (∀ val e, m.write_obj val offset ≠ Except.error (Error.WriteToMemory e) ∧
      m.write_obj val offset ≠ Except.error (Error.ReadFromMemory e)) ∧
    (∀ sz e, m.read_obj sz offset ≠ Except.error (Error.WriteToMemory e) ∧
      m.read_obj sz offset ≠ Except.error (Error.ReadFromMemory e)) ∧
    (∀ src cnt e, m.read_to_memory offset src cnt ≠ Except.error (Error.WriteToMemory e) ∧
      m.read_to_memory offset src cnt ≠ Except.error (Error.ReadFromMemory e)) ∧
    (∀ cap cnt e,
      m.write_from_memory offset cap cnt ≠ Except.error (Error.WriteToMemory e) ∧
      m.write_from_memory offset cap cnt ≠ Except.error (Error.ReadFromMemory e)) ∧
    (∀ ret cnt e,
      (m.remove_range ret offset cnt).2 ≠ Except.error (Error.WriteToMemory e) ∧
      (m.remove_range ret offset cnt).2 ≠ Except.error (Error.ReadFromMemory e)) := by
  refine ⟨fun h => ?_, fun e => ?_, fun e => ?_, fun val e => ?_, fun sz e => ?_,
    fun src cnt e => ?_, fun cap cnt e => ?_, fun ret cnt e => ?_⟩
  · rw [write_slice_eq m buf offset h, read_slice_eq m buf offset h]
    exact ⟨rfl, rfl⟩
  · by_cases h : offset ≥ m.size
    · simp [MemoryMapping.write_slice, h]
    · rw [write_slice_eq m buf offset (by omega)]
      exact ⟨by simp, by simp⟩
  · by_cases h : offset ≥ m.size
    · simp [MemoryMapping.read_slice, h]
    · rw [read_slice_eq m buf offset (by omega)]
      exact ⟨by simp, by simp⟩
  · unfold MemoryMapping.write_obj
    constructor <;>
    · split
      · rename_i e' heq
        by_cases hc : offset + val.length ≤ USIZE_MAX ∧ offset + val.length ≤ m.size
        · rw [range_end_ok_of m offset val.length hc.1 hc.2] at heq
          cases heq
        · rw [range_end_error_of m offset val.length (by omega)] at heq
          cases heq
          simp
      · simp
  · unfold MemoryMapping.read_obj
    constructor <;>
    · split
      · rename_i e' heq
        by_cases hc : offset + sz ≤ USIZE_MAX ∧ offset + sz ≤ m.size
        · rw [range_end_ok_of m offset sz hc.1 hc.2] at heq
          cases heq
        · rw [range_end_error_of m offset sz (by omega)] at heq
          cases heq
          simp
      · simp
  · unfold MemoryMapping.read_to_memory
    constructor <;>
    · split
      · simp
      · unfold read_exact
        split <;> simp
  · unfold MemoryMapping.write_from_memory
    constructor <;>
    · split
      · simp
      · unfold write_all
        split <;> simp
  · unfold MemoryMapping.remove_range
    constructor <;>
    · split
      · simp
      · split <;> simp

/-- C10 witness: at offset 0 of a 5-byte region both slice operations succeed,
and `write_slice` can never surface `WriteToMemory`. -/
theorem slice_io_variants_unreachable_witness :
    (0 : Nat) < (anonRegion 5).size ∧
    ((anonRegion 5).write_slice [1, 2, 3] 0).isOk = true ∧
    ((anonRegion 5).read_slice [1, 2, 3] 0).isOk = true ∧
    ∀ e, (anonRegion 5).write_slice [1, 2, 3] 0 ≠ Except.error (Error.WriteToMemory e) := by
  obtain ⟨h1, h2, -⟩ := slice_io_variants_unreachable (anonRegion 5) [1, 2, 3] 0
  obtain ⟨hw, hr⟩ := h1 (by decide)
  exact ⟨by decide, hw, hr, fun e => (h2 e).1⟩

end Mmap
